import Mathlib

/-!
Verification development for the codex-notify repository (Go CLI `main.go`
plus the Swift popup helper `internal/swift/approval_action_notifier.swift`).

The shallow embedding below translates the string- and list-manipulating
functions of the source into executable Lean definitions.  Conventions:

* Go strings are modelled as Lean `String` (a list of `Char`).  Go indexes
  and measures strings in bytes; the embedding identifies one `Char` per
  code unit, which is exact for ASCII data and keeps all positional
  arithmetic (slices, lengths) faithful.
* Go's `strings.TrimSpace` / `strings.ToLower` / `strings.Fields` are
  modelled on the ASCII whitespace and letter ranges, which is what every
  configuration value and option keyword in the source uses.
* Environment variables, the compiled-helper availability and the results
  of spawned `osascript` processes are passed in explicitly as parameters,
  since each CLI invocation reads them once.
-/

/-- ASCII whitespace test modelling the characters `strings.TrimSpace` and
`strings.Fields` treat as separators for the data handled by the tool. -/
def isWSChar (c : Char) : Bool :=
  c = ' ' || c = '\t' || c = '\n' || c = '\r'

/-- Trim whitespace from both ends of a character list (Go `strings.TrimSpace`). -/
def trimChars (l : List Char) : List Char :=
  ((l.dropWhile isWSChar).reverse.dropWhile isWSChar).reverse

/-- Go `strings.TrimSpace` on a string. -/
def trimS (s : String) : String := ⟨trimChars s.data⟩

/-- Go `strings.ToLower` (ASCII range). -/
def lowerS (s : String) : String := ⟨s.data.map Char.toLower⟩

/-- Go `strings.Join(parts, " ")`. -/
def joinSpace : List String → String
  | [] => ""
  | [w] => w
  | w :: ws => w ++ " " ++ joinSpace ws

/-- List-of-characters version of `joinSpace`, used by the field-splitting proofs. -/
def joinSpChars : List (List Char) → List Char
  | [] => []
  | [w] => w
  | w :: ws => w ++ ' ' :: joinSpChars ws

/-- Accumulator loop of `strings.Fields`: split a character list at
whitespace runs, discarding empty fields. -/
def fieldsAuxWS : List Char → List Char → List (List Char)
  | acc, [] => if acc = [] then [] else [acc.reverse]
  | acc, c :: rest =>
    if isWSChar c then
      if acc = [] then fieldsAuxWS [] rest else acc.reverse :: fieldsAuxWS [] rest
    else fieldsAuxWS (c :: acc) rest

/-- Go `strings.Fields`. -/
def fieldsWS (l : List Char) : List (List Char) := fieldsAuxWS [] l

/-- The whitespace collapsing in `payloadPreviewMessage`
(`strings.Join(strings.Fields(msg), " ")` at main.go:684). -/
def collapseWS (s : String) : String := ⟨joinSpChars (fieldsWS s.data)⟩

/-! ## JSON payload model

`json.Unmarshal` decodes the hook payload into a Go `map[string]any`.
The embedding represents the decoded document as an association list of
string keys and `JValue`s (numbers are carried as integers; the source only
ever renders them through `fmt.Sprintf("%v")` inside mixed option lists). -/

inductive JValue where
  | str (s : String)
  | num (n : Int)
  | boolean (b : Bool)
  | null
  | arr (xs : List JValue)
  | obj (fs : List (String × JValue))

/-- A decoded hook payload (Go `map[string]any`). -/
abbrev Payload := List (String × JValue)

/-- Key lookup in the payload map. -/
def lookupKey (p : Payload) (key : String) : Option JValue :=
  (p.find? (fun kv => kv.1 = key)).map (·.2)

mutual

/-- Go `fmt.Sprintf("%v", item)` for the values that can appear in a decoded
JSON list (main.go:734).  Nested containers use Go's bracketed rendering. -/
def renderGoValue : JValue → String
  | .str s => s
  | .num n => toString n
  | .boolean true => "true"
  | .boolean false => "false"
  | .null => "<nil>"
  | .arr xs => "[" ++ joinSpace (renderGoList xs) ++ "]"
  | .obj fs => "map[" ++ joinSpace (renderGoFields fs) ++ "]"

/-- Renders the items of a decoded JSON list for `renderGoValue`. -/
def renderGoList : List JValue → List String
  | [] => []
  | x :: xs => renderGoValue x :: renderGoList xs

/-- Renders the entries of a decoded JSON object for `renderGoValue`. -/
def renderGoFields : List (String × JValue) → List String
  | [] => []
  | (k, v) :: fs => (k ++ ":" ++ renderGoValue v) :: renderGoFields fs

end

/-- `getString` (main.go:691-701): a string-valued key, trimmed; any other
value (absent, null, non-string) yields the empty string. -/
def getString (p : Payload) (key : String) : String :=
  match lookupKey p key with
  | some (.str s) => trimS s
  | _ => ""

/-- `getStringAny` (main.go:703-710): first key whose `getString` is non-empty. -/
def getStringAny (p : Payload) : List String → String
  | [] => ""
  | key :: keys =>
    let s := getString p key
    if s = "" then getStringAny p keys else s

/-- `getStringSliceAny` (main.go:712-745) restricted to the `[]any` branch,
the only shape `json.Unmarshal` produces for a JSON list: each item is
rendered with `%v`, trimmed, and dropped when empty; the first key with a
non-empty result wins, otherwise the result is empty. -/
def getStringSliceAny (p : Payload) : List String → List String
  | [] => []
  | key :: keys =>
    match lookupKey p key with
    | some (.arr xs) =>
      let out := (xs.map fun x => trimS (renderGoValue x)).filter (· ≠ "")
      if out = [] then getStringSliceAny p keys else out
    | _ => getStringSliceAny p keys

/-- `payloadEventName` (main.go:662-664). -/
def payloadEventName (p : Payload) : String :=
  getStringAny p ["event", "type"]

/-- `payloadThreadID` (main.go:666-668). -/
def payloadThreadID (p : Payload) : String :=
  getStringAny p ["thread-id", "thread_id", "threadId"]

/-- The message-assembly and whitespace-normalization prefix of
`payloadPreviewMessage` (main.go:670-684), before the length truncation. -/
def payloadPreviewCore (p : Payload) : String :=
  let msg := getStringAny p
    ["last-assistant-message", "last_assistant_message", "message", "text"]
  let msg :=
    if msg = "" then
      let msgs := getStringSliceAny p ["input-messages", "input_messages"]
      if msgs = [] then msg else joinSpace msgs
    else msg
  collapseWS msg

/-- `payloadPreviewMessage` (main.go:670-689): normalized preview text,
hard-truncated at 180 code units with a three-dot ellipsis appended. -/
def payloadPreviewMessage (p : Payload) : String :=
  let msg := payloadPreviewCore p
  if 180 < msg.length then ⟨msg.data.take 177⟩ ++ "..." else msg

/-! ## Shell quoting and the action continuation commands (main.go:780-821)

`os.Executable` is passed in explicitly as the `executable` argument. -/

/-- Character-level body of `shellQuote`: `strings.ReplaceAll(v, "'", ...)`
replacing each single quote by the five characters quote, double quote,
quote, double quote, quote (main.go:820). -/
def escQuoteChar (c : Char) : List Char :=
  if c = '\'' then ['\'', '"', '\'', '"', '\''] else [c]

/-- `strings.ReplaceAll(v, "'", ...)` on a character list (the pattern is a
single character, so the replacement is a per-character expansion). -/
def sqBody (v : List Char) : List Char :=
  v.foldr (fun c acc => escQuoteChar c ++ acc) []

/-- `shellQuote` (main.go:816-821). -/
def shellQuote (v : String) : String :=
  if v = "" then "''" else "'" ++ (⟨sqBody v.data⟩ : String) ++ "'"

/-- `buildActionCommand` (main.go:780-795); the resolved executable path is
the `executable` parameter. -/
def buildActionCommand (executable action threadID : String) : String :=
  let parts := [shellQuote executable, "action", shellQuote action]
  let parts :=
    if threadID ≠ "" then parts ++ ["--thread-id", shellQuote threadID] else parts
  joinSpace parts

/-- `buildSubmitActionCommand` (main.go:797-814). -/
def buildSubmitActionCommand (executable text threadID : String) : String :=
  let parts := [shellQuote executable, "action", "submit", "--text", shellQuote text]
  let parts :=
    if threadID ≠ "" then parts ++ ["--thread-id", shellQuote threadID] else parts
  joinSpace parts

/-! ## Choice resolver (main.go:1095-1169) -/

/-- `approvalChoice` (main.go:1095-1098). -/
structure approvalChoice where
  Label : String
  Command : String
deriving DecidableEq

/-- `defaultApprovalChoices` (main.go:1100-1106). -/
def defaultApprovalChoices (executable threadID : String) : List approvalChoice :=
  [⟨"Open", buildActionCommand executable "open" threadID⟩,
   ⟨"Approve", buildActionCommand executable "approve" threadID⟩,
   ⟨"Reject", buildActionCommand executable "reject" threadID⟩]

/-- `payloadApprovalOptions` (main.go:1134-1143). -/
def payloadApprovalOptions (p : Payload) : List String :=
  getStringSliceAny p
    ["approval-options", "approval_options", "options", "choices", "actions"]

/-- The label normalization inside `actionForApprovalOption`
(main.go:1146-1149): lowercase the trimmed label, then delete spaces,
hyphens and underscores. -/
def normalizeOptionLabel (label : String) : String :=
  ⟨((trimS label).data.map Char.toLower).filter
    (fun c => !(c = ' ' || c = '-' || c = '_'))⟩

/-- The known option vocabulary of `actionForApprovalOption`
(main.go:1151-1158). -/
def approvalVocab : List String :=
  ["open", "show", "focus",
   "approve", "approved", "allow", "yes", "y", "ok",
   "reject", "denied", "deny", "no", "n", "cancel"]

/-- `actionForApprovalOption` (main.go:1145-1169). -/
def actionForApprovalOption (label : String) (idx total : Nat) : String :=
  let norm := normalizeOptionLabel label
  if norm = "open" ∨ norm = "show" ∨ norm = "focus" then "open"
  else if norm = "approve" ∨ norm = "approved" ∨ norm = "allow" ∨
          norm = "yes" ∨ norm = "y" ∨ norm = "ok" then "approve"
  else if norm = "reject" ∨ norm = "denied" ∨ norm = "deny" ∨
          norm = "no" ∨ norm = "n" ∨ norm = "cancel" then "reject"
  else if total = 2 then (if idx = 0 then "approve" else "reject")
  else ""

/-- `approvalChoicesFromPayload` (main.go:1108-1132). -/
def approvalChoicesFromPayload (executable : String) (p : Payload)
    (threadID : String) : List approvalChoice :=
  let options := payloadApprovalOptions p
  if options = [] then []
  else
    options.enum.filterMap fun iopt =>
      let label := trimS iopt.2
      if label = "" then Option.none
      else
        let action := actionForApprovalOption label iopt.1 options.length
        let command :=
          if action = "" then buildSubmitActionCommand executable label threadID
          else buildActionCommand executable action threadID
        some ⟨label, command⟩

/-! ## Configuration readers (main.go:858-912, 1015-1032) -/

/-- Value of a digit string, most significant first. -/
def digitsVal : List Char → Nat
  | [] => 0
  | c :: rest => digitsVal rest + (c.toNat - '0'.toNat) * 10 ^ rest.length

/-- Signed decimal integer parsing shared by Go `strconv.Atoi` and Swift
`Int(String)`: an optional sign followed by one or more digits, rejecting
anything else and values outside the signed 64-bit range (both sources parse
into a 64-bit `Int` and report failure on overflow). -/
def parseDecInt (s : String) : Option Int :=
  let core : List Char → Option Int := fun ds =>
    if ds = [] ∨ ¬ ds.all Char.isDigit then Option.none
    else some (digitsVal ds)
  let raw : Option Int :=
    match s.data with
    | '+' :: rest => core rest
    | '-' :: rest => (core rest).map Int.neg
    | l => core l
  match raw with
  | some n => if n < -(2 ^ 63) ∨ 2 ^ 63 - 1 < n then Option.none else some n
  | Option.none => Option.none

/-- `approvalActionTimeoutSeconds` (main.go:1015-1032); `raw` is the value of
the environment variable, with the empty string standing for an
absent/empty variable. -/
def approvalActionTimeoutSeconds (raw : String) : Int :=
  let t := trimS raw
  if t = "" then 45
  else
    match parseDecInt t with
    | Option.none => 45
    | some parsed =>
      if parsed < 5 then 5
      else if parsed > 300 then 300
      else parsed

/-- `approvalActionsEnabled` (main.go:858-864); the argument is the raw value
of the controlling environment variable. -/
def approvalActionsEnabled (v : String) : Bool :=
  let t := lowerS (trimS v)
  if t = "" then true
  else t = "1" || t = "true" || t = "yes" || t = "on"

/-- `approvalUIStyle` (main.go:866-876). -/
def approvalUIStyle (v : String) : String :=
  let t := lowerS (trimS v)
  if t = "" ∨ t = "popup" ∨ t = "single" then "popup"
  else if t = "multi" then "multi"
  else "popup"

/-- `notificationUIStyle` (main.go:878-888). -/
def notificationUIStyle (v : String) : String :=
  let t := lowerS (trimS v)
  if t = "" ∨ t = "popup" then "popup"
  else if t = "system" then "system"
  else "popup"

/-! ## Notification grouping and titles (main.go:628-660, 747-778) -/

/-- Character mapping inside `sanitizeID` (main.go:758-778). -/
def sanitizeChar (c : Char) : Char :=
  if ('a' ≤ c ∧ c ≤ 'z') ∨ ('A' ≤ c ∧ c ≤ 'Z') ∨ ('0' ≤ c ∧ c ≤ '9') ∨
     c = '.' ∨ c = '_' ∨ c = '-' then c
  else '-'

/-- `sanitizeID` (main.go:758-778): map every character, then trim hyphens
from both ends. -/
def sanitizeID (v : String) : String :=
  if v = "" then ""
  else
    let mapped := v.data.map sanitizeChar
    ⟨((mapped.dropWhile (· = '-')).reverse.dropWhile (· = '-')).reverse⟩

/-- `notificationGroup` (main.go:747-756). -/
def notificationGroup (kind threadID : String) : String :=
  let k := sanitizeID kind
  let k := if k = "" then "event" else k
  if threadID = "" then "codex-notify-" ++ k
  else "codex-notify-" ++ k ++ "-" ++ sanitizeID threadID

/-- `renderPayloadMessage` (main.go:628-660): title and message for the
notification, with per-event defaults when the preview is empty. -/
def renderPayloadMessage (p : Payload) : String × String :=
  let event := payloadEventName p
  let preview := payloadPreviewMessage p
  if event = "agent-turn-complete" then
    ("Codex: Turn Complete", if preview = "" then "入力待ちです。" else preview)
  else if event = "approval-requested" then
    ("Codex: Approval Requested", if preview = "" then "承認待ちです。" else preview)
  else if event = "agent-error" then
    ("Codex: Error", if preview = "" then "エラーイベントを受信しました。" else preview)
  else if event = "" then
    ("Codex", if preview = "" then "通知イベントを受信しました。" else preview)
  else if preview ≠ "" then
    ("Codex", event ++ ": " ++ preview)
  else
    ("Codex", "イベント: " ++ event)

/-! ## The hook pipeline (main.go:269-299, 589-626, 890-945)

Each field of `HookEnv` is the raw value of the corresponding environment
variable read by the source (empty string for an unset variable), plus the
two facts about the outside world a hook invocation depends on: whether the
popup helper can be prepared and started (`helperOK`), and whether an
InteractionLock marker for the event's notification group currently exists
on disk (`lockHeld`).  The source of `runHook` and
`sendNativeApprovalNotification` never consults any lock marker — no Go code
creates, passes or reads an interaction lock file — which is exactly what
the suppression analysis below exhibits. -/

structure HookEnv where
  notificationUI : String
  approvalUI : String
  enableApprovalActions : String
  enablePopupApproval : String
  enableNativeApproval : String
  timeoutRaw : String
  executable : String
  helperOK : Bool
  lockHeld : Bool

/-- `shouldUseNativeApprovalNotification` (main.go:890-912). -/
def shouldUseNativeApprovalNotification (env : HookEnv) (p : Payload) : Bool :=
  if notificationUIStyle env.notificationUI = "system" then false
  else if payloadEventName p ≠ "approval-requested" then false
  else if ¬ (approvalActionsEnabled env.enableApprovalActions = true) then false
  else if approvalUIStyle env.approvalUI = "multi" then false
  else
    let v := lowerS (trimS env.enablePopupApproval)
    let v := if v = "" then lowerS (trimS env.enableNativeApproval) else v
    if v = "" then true
    else v = "1" || v = "true" || v = "yes" || v = "on"

/-- The choice selection of `sendNativeApprovalNotification`
(main.go:920-925): payload choices, or the default triple when empty. -/
def sendNativeApprovalChoices (executable : String) (p : Payload) : List approvalChoice :=
  let threadID := payloadThreadID p
  let choices := approvalChoicesFromPayload executable p threadID
  if choices = [] then defaultApprovalChoices executable threadID else choices

/-- The helper argument vector built by `sendNativeApprovalNotification`
(main.go:927-936).  Note that no `--interaction-lock-file` flag is passed,
although the Swift helper would accept one. -/
def sendNativeApprovalArgs (env : HookEnv) (p : Payload) : List String :=
  let threadID := payloadThreadID p
  let tm := renderPayloadMessage p
  ["--title", tm.1, "--message", tm.2,
   "--identifier", notificationGroup "approval-native" threadID,
   "--timeout-seconds", toString (approvalActionTimeoutSeconds env.timeoutRaw)] ++
  (sendNativeApprovalChoices env.executable p).flatMap
    (fun c => ["--choice-label", c.Label, "--choice-cmd", c.Command])

/-- `notificationRequest` (main.go:52-59). -/
structure notificationRequest where
  Title : String
  Message : String
  Group : String
  ExecuteOnClick : String
  ActivateBundleID : String
  PopupPrimaryLabel : String
deriving DecidableEq

/-- `buildHookNotifications` (main.go:589-626). -/
def buildHookNotifications (env : HookEnv) (p : Payload) : List notificationRequest :=
  let eventName := payloadEventName p
  let threadID := payloadThreadID p
  let tm := renderPayloadMessage p
  let base : notificationRequest :=
    ⟨tm.1, tm.2, notificationGroup eventName threadID,
     buildActionCommand env.executable "open" threadID, "", ""⟩
  if eventName = "approval-requested" ∧ approvalActionsEnabled env.enableApprovalActions = true then
    if approvalUIStyle env.approvalUI = "multi" then
      [base,
       ⟨"Codex: Approve", "クリックで承認入力を送信", notificationGroup "approve" threadID,
        buildActionCommand env.executable "approve" threadID, "", "Approve"⟩,
       ⟨"Codex: Reject", "クリックで拒否入力を送信", notificationGroup "reject" threadID,
        buildActionCommand env.executable "reject" threadID, "", "Reject"⟩]
    else
      [{ base with ExecuteOnClick := buildActionCommand env.executable "choose" threadID }]
  else [base]

/-- One outward dispatch performed by a hook invocation: either the spawn of
the native popup helper with its argument vector, or a notification request
handed to `sendNotification`. -/
inductive HookDispatch where
  | nativeHelper (args : List String)
  | notify (req : notificationRequest)
deriving DecidableEq

/-- `runHook` (main.go:269-299): parse the payload (empty input is treated
as an empty payload; invalid JSON is a fatal error), try the native approval
popup, and otherwise send the regular notifications.  The result is the list
of dispatches performed.  `parse` stands for `json.Unmarshal`. -/
def runHook (env : HookEnv) (raw : String)
    (parse : String → Except String Payload) : Except String (List HookDispatch) :=
  let parsed : Except String Payload :=
    if trimS raw = "" then .ok [] else parse raw
  match parsed with
  | .error e => .error ("parse payload json: " ++ e)
  | .ok p =>
    if shouldUseNativeApprovalNotification env p && env.helperOK then
      .ok [.nativeHelper (sendNativeApprovalArgs env p)]
    else
      .ok ((buildHookNotifications env p).map .notify)

/-! ## Swift popup helper (approval_action_notifier.swift)

The helper is a single-threaded AppKit process; its control flow is the
callback-driven state machine embedded below.  Argument parsing follows
`parseArgs` (swift:18-81) exactly. -/

/-- Swift `value(_ key)` (swift:19-24): the argument following the first
occurrence of `key`, when such a following argument exists. -/
def swiftValue (args : List String) (key : String) : Option String :=
  match args with
  | k :: v :: rest =>
    if k = key then some v else swiftValue (v :: rest) key
  | _ => Option.none

/-- Swift `values(_ key)` (swift:26-38): every argument directly following an
occurrence of `key`, consuming key and value pairwise. -/
def swiftValues (args : List String) (key : String) : List String :=
  match args with
  | k :: v :: rest =>
    if k = key then v :: swiftValues rest key else swiftValues (v :: rest) key
  | _ => []

/-- A (label, command) choice of the helper (swift:4-7). -/
structure SwiftChoice where
  label : String
  command : String
deriving DecidableEq

/-- The parsed helper configuration (swift:9-16). -/
structure SwiftConfig where
  title : String
  message : String
  identifier : String
  timeoutSeconds : Int
  interactionLockFile : String
  choices : List SwiftChoice
deriving DecidableEq

/-- The timeout computation of `parseArgs` (swift:45-47): parse the
`--timeout-seconds` value (default string "45"), fall back to 45 when
unparsable, and clamp into [5, 300]. -/
def swiftClampTimeout (raw : Option String) : Int :=
  let timeoutRaw := raw.getD "45"
  let timeoutParsed := (parseDecInt timeoutRaw).getD 45
  max 5 (min 300 timeoutParsed)

/-- The choice assembly of `parseArgs` (swift:49-71): pair labels and
commands positionally, trim both, drop pairs where either side is empty, and
substitute the default triple with empty commands when nothing survives. -/
def swiftParseChoices (args : List String) : List SwiftChoice :=
  let labels := swiftValues args "--choice-label"
  let commands := swiftValues args "--choice-cmd"
  let count := min labels.length commands.length
  let choices := ((labels.take count).zip (commands.take count)).filterMap fun lc =>
    let label := trimS lc.1
    let command := trimS lc.2
    if label = "" ∨ command = "" then Option.none else some ⟨label, command⟩
  if choices = [] then
    [⟨"Open", ""⟩, ⟨"Approve", ""⟩, ⟨"Reject", ""⟩]
  else choices

/-- Swift `parseArgs` (swift:18-81). -/
def parseArgs (args : List String) : SwiftConfig :=
  { title := (swiftValue args "--title").getD "Codex: Approval Requested"
    message := (swiftValue args "--message").getD "承認待ちです。"
    identifier := (swiftValue args "--identifier").getD ""
    timeoutSeconds := swiftClampTimeout (swiftValue args "--timeout-seconds")
    interactionLockFile := (swiftValue args "--interaction-lock-file").getD ""
    choices := swiftParseChoices args }

/-- Mutable state of `PopupController` relevant to the outcome logic
(swift:311-612): the `isClosing` latch, timer validity, the released lock,
and the shell commands executed via `runShell`, in execution order. -/
structure HelperState where
  isClosing : Bool
  timersValid : Bool
  lockReleased : Bool
  executed : List String
deriving DecidableEq

/-- Helper state when the popup enters Displaying (after `show()`). -/
def initHelperState : HelperState :=
  ⟨false, true, false, []⟩

/-- `runShell` (swift:91-111): execute a non-empty command synchronously,
ignoring its output; an empty command is a no-op. -/
def runShellStep (st : HelperState) (cmd : String) : HelperState :=
  if cmd = "" then st else { st with executed := st.executed ++ [cmd] }

/-- `closePopup` (swift:583-612): a one-shot transition guarded by the
`isClosing` latch; it invalidates both timers, releases the interaction
lock, and schedules termination behind the fade-out animation's completion
handler (so the process lives on briefly and the run loop keeps serving
queued user events until termination). -/
def closePopupStep (st : HelperState) : HelperState :=
  if st.isClosing then st
  else { st with isClosing := true, timersValid := false, lockReleased := true }

/-- Run-loop events the outcome logic reacts to: a click on choice button
`idx`, the countdown timer firing, and the manual close control. -/
inductive HelperEvent where
  | choiceClick (idx : Nat)
  | timeoutFired
  | closeClick
deriving DecidableEq

/-- One run-loop callback of the helper.  `choiceClicked` (swift:573-581)
bounds-checks the index and otherwise runs the choice's command and then
calls `closePopup`; note that the source has no `isClosing` guard before
`runShell`.  The timeout callback only fires while its timer is valid
(`closePopup` invalidates it); the close control calls `closePopup`
directly. -/
def helperStep (cfg : SwiftConfig) (st : HelperState) : HelperEvent → HelperState
  | .choiceClick idx =>
    match cfg.choices.get? idx with
    | Option.none => closePopupStep st
    | some c => closePopupStep (runShellStep st c.command)
  | .timeoutFired => if st.timersValid then closePopupStep st else st
  | .closeClick => closePopupStep st

/-- A run of the helper's state machine on a sequence of delivered events. -/
def helperRun (cfg : SwiftConfig) (events : List HelperEvent) : HelperState :=
  events.foldl (helperStep cfg) initHelperState

/-! ## Key-injection action dispatcher (main.go:301-334, 1171-1294)

`ActionEnv` carries the outcomes of the external capabilities a dispatch
invocation uses: whether `osascript` is on the PATH, the outcome of
activating the target application, the outcome of sending each key token,
the raw standard output of the chooser dialog script (or its process
failure), and the configured approve/reject key sequences. -/

structure ActionEnv where
  osascriptAvailable : Bool
  activateOutcome : Except String Unit
  keyOutcome : String → Except String Unit
  dialogOutcome : Except String String
  approveKeys : List String
  rejectKeys : List String

/-- `activateApplication` (main.go:1171-1183). -/
def activateApplication (env : ActionEnv) : Except String Unit :=
  if env.osascriptAvailable then env.activateOutcome
  else .error "osascript not found"

/-- The token loop of `sendKeySequence` (main.go:1270-1291): trim each
token, skip empty ones, and abort on the first delivery failure. -/
def sendKeyTokens (env : ActionEnv) : List String → Except String Unit
  | [] => .ok ()
  | token :: rest =>
    let t := trimS token
    if t = "" then sendKeyTokens env rest
    else
      match env.keyOutcome t with
      | .error e => .error e
      | .ok _ => sendKeyTokens env rest

/-- `sendKeySequence` (main.go:1264-1294). -/
def sendKeySequence (env : ActionEnv) (seq : List String) : Except String Unit :=
  if env.osascriptAvailable then sendKeyTokens env seq
  else .error "osascript not found"

/-- `sendActionKeys` (main.go:1185-1195): activate, settle, then send the
sequence (an empty sequence is a success). -/
def sendActionKeys (env : ActionEnv) (seq : List String) : Except String Unit :=
  match activateApplication env with
  | .error e => .error e
  | .ok _ => if seq = [] then .ok () else sendKeySequence env seq

/-- Distinguishes the sentinel `errDialogCanceled` (main.go:46) from real
chooser failures. -/
inductive ChooseError where
  | dialogCanceled
  | failure (msg : String)
deriving DecidableEq

/-- `chooseApprovalAction` (main.go:1218-1262): run the dialog script and
normalize its output; empty or "none" means canceled, a known choice is
returned, anything else is an error. -/
def chooseApprovalAction (env : ActionEnv) : Except ChooseError String :=
  if ¬ env.osascriptAvailable then .error (.failure "osascript not found")
  else
    match env.dialogOutcome with
    | .error e => .error (.failure ("choose action failed: " ++ e))
    | .ok out =>
      let choice := lowerS (trimS out)
      if choice = "" ∨ choice = "none" then .error .dialogCanceled
      else if choice = "open" ∨ choice = "approve" ∨ choice = "reject" then .ok choice
      else .error (.failure ("unknown choice from dialog: " ++ choice))

/-- `runChooseAction` (main.go:1197-1216): a canceled dialog is a successful
no-op (`.ok Option.none`); a concrete choice recurses into the matching
dispatch, whose performed action is reported as `.ok (some action)`. -/
def runChooseAction (env : ActionEnv) : Except String (Option String) :=
  match chooseApprovalAction env with
  | .error .dialogCanceled => .ok Option.none
  | .error (.failure m) => .error m
  | .ok choice =>
    if choice = "open" then (activateApplication env).map fun _ => some "open"
    else if choice = "approve" then
      (sendActionKeys env env.approveKeys).map fun _ => some "approve"
    else if choice = "reject" then
      (sendActionKeys env env.rejectKeys).map fun _ => some "reject"
    else .error ("unknown chosen action: " ++ choice)

/-! ## POSIX word splitting model for the continuation command lines

The command lines built by `buildActionCommand` / `buildSubmitActionCommand`
are evaluated by `/bin/zsh -lc` (swift:91-111) and by `terminal-notifier
-execute`.  `shellFields` models the POSIX field-splitting and quote-removal
rules that apply to these strings: space separates words, text between
single quotes is literal, and text between double quotes is literal for the
character set these command lines contain (the only character the builders
ever place between double quotes is a single quote, which POSIX treats
literally there).  An unterminated quote makes the parse fail. -/

inductive QMode where
  | top
  | sq
  | dq
deriving DecidableEq

/-- The splitter: `cur` is the word under construction (`Option.none` when
no word has started). -/
def shellFieldsAux : QMode → Option (List Char) → List Char → Option (List (List Char))
  | .top, Option.none, [] => some []
  | .top, some w, [] => some [w]
  | .sq, _, [] => Option.none
  | .dq, _, [] => Option.none
  | .top, cur, c :: rest =>
    if c = '\'' then shellFieldsAux .sq (some (cur.getD [])) rest
    else if c = '"' then shellFieldsAux .dq (some (cur.getD [])) rest
    else if c = ' ' then
      match cur with
      | Option.none => shellFieldsAux .top Option.none rest
      | some w => (shellFieldsAux .top Option.none rest).map fun ws => w :: ws
    else shellFieldsAux .top (some (cur.getD [] ++ [c])) rest
  | .sq, cur, c :: rest =>
    if c = '\'' then shellFieldsAux .top cur rest
    else shellFieldsAux .sq (some (cur.getD [] ++ [c])) rest
  | .dq, cur, c :: rest =>
    if c = '"' then shellFieldsAux .top cur rest
    else shellFieldsAux .dq (some (cur.getD [] ++ [c])) rest

/-- Split a command-line string into its shell words. -/
def shellFields (s : String) : Option (List String) :=
  (shellFieldsAux .top Option.none s.data).map fun ws => ws.map fun w => (⟨w⟩ : String)

/-! ## Lemmas about the shell quoting round trip -/

/-- Inside single quotes, consuming the quoted body of `v` followed by the
closing quote appends exactly `v` to the current word. -/
theorem shellFieldsAux_sqBody (v : List Char) :
    ∀ acc rest, shellFieldsAux .sq (some acc) (sqBody v ++ '\'' :: rest) =
      shellFieldsAux .top (some (acc ++ v)) rest := by
  induction v with
  | nil =>
    intro acc rest
    simp [sqBody, shellFieldsAux]
  | cons c v ih =>
    intro acc rest
    by_cases hc : c = '\''
    · subst hc
      simp only [sqBody, List.foldr, escQuoteChar, if_pos rfl, List.cons_append,
        List.append_assoc]
      show shellFieldsAux .sq (some acc)
          ('\'' :: '"' :: '\'' :: '"' :: '\'' ::
            (sqBody v ++ '\'' :: rest)) = _
      rw [show shellFieldsAux .sq (some acc)
            ('\'' :: '"' :: '\'' :: '"' :: '\'' ::
              (sqBody v ++ '\'' :: rest)) =
          shellFieldsAux .sq (some (acc ++ ['\'']))
            (sqBody v ++ '\'' :: rest) from rfl]
      rw [ih]
      simp
    · simp only [sqBody, List.foldr, escQuoteChar, if_neg hc, List.cons_append,
        List.singleton_append]
      show shellFieldsAux .sq (some acc) (c :: (sqBody v ++ '\'' :: rest)) = _
      rw [show shellFieldsAux .sq (some acc) (c :: (sqBody v ++ '\'' :: rest)) =
          shellFieldsAux .sq (some (acc ++ [c])) (sqBody v ++ '\'' :: rest) by
        simp [shellFieldsAux, hc]]
      rw [ih]
      simp

/-- Consuming a shell-quoted word starts (or extends) the current word with
exactly the original string. -/
theorem shellFieldsAux_shellQuote (s : String) (rest : List Char) :
    shellFieldsAux .top Option.none ((shellQuote s).data ++ rest) =
      shellFieldsAux .top (some s.data) rest := by
  by_cases h : s = ""
  · subst h
    show shellFieldsAux .top Option.none ('\'' :: '\'' :: rest) = _
    rfl
  · have hd : (shellQuote s).data = '\'' :: (sqBody s.data ++ ['\'']) := by
      simp only [shellQuote, if_neg h]
      rfl
    rw [hd]
    show shellFieldsAux .top Option.none
        ('\'' :: ((sqBody s.data ++ ['\'']) ++ rest)) = _
    rw [show shellFieldsAux .top Option.none
          ('\'' :: ((sqBody s.data ++ ['\'']) ++ rest)) =
        shellFieldsAux .sq (some [])
          ((sqBody s.data ++ ['\'']) ++ rest) from rfl]
    rw [List.append_assoc, List.singleton_append]
    rw [shellFieldsAux_sqBody]
    simp

/-- A space while a word is open flushes the word. -/
theorem shellFieldsAux_space (w : List Char) (rest : List Char) :
    shellFieldsAux .top (some w) (' ' :: rest) =
      (shellFieldsAux .top Option.none rest).map fun ws => w :: ws := rfl

/-- Plain characters (no quote, no space) extend the current word. -/
theorem shellFieldsAux_plainAcc (w : List Char)
    (h : ∀ c ∈ w, ¬(c = '\'' ∨ c = '"' ∨ c = ' ')) :
    ∀ acc rest, shellFieldsAux .top (some acc) (w ++ rest) =
      shellFieldsAux .top (some (acc ++ w)) rest := by
  induction w with
  | nil => intro acc rest; simp
  | cons c w ih =>
    intro acc rest
    have hc := h c (List.mem_cons_self c w)
    push_neg at hc
    obtain ⟨h1, h2, h3⟩ := hc
    show shellFieldsAux .top (some acc) (c :: (w ++ rest)) = _
    rw [show shellFieldsAux .top (some acc) (c :: (w ++ rest)) =
        shellFieldsAux .top (some (acc ++ [c])) (w ++ rest) by
      simp [shellFieldsAux, h1, h2, h3]]
    rw [ih (fun d hd => h d (List.mem_cons_of_mem c hd))]
    simp

/-- A non-empty unquoted plain word starts a word containing exactly itself. -/
theorem shellFieldsAux_plainStart (w : List Char) (hne : w ≠ [])
    (h : ∀ c ∈ w, ¬(c = '\'' ∨ c = '"' ∨ c = ' ')) (rest : List Char) :
    shellFieldsAux .top Option.none (w ++ rest) =
      shellFieldsAux .top (some w) rest := by
  match w, hne with
  | c :: w, _ =>
    have hc := h c (List.mem_cons_self c w)
    push_neg at hc
    obtain ⟨h1, h2, h3⟩ := hc
    show shellFieldsAux .top Option.none (c :: (w ++ rest)) = _
    rw [show shellFieldsAux .top Option.none (c :: (w ++ rest)) =
        shellFieldsAux .top (some [c]) (w ++ rest) by
      simp [shellFieldsAux, h1, h2, h3]]
    rw [shellFieldsAux_plainAcc w (fun d hd => h d (List.mem_cons_of_mem c hd))]
    simp

/-- Splitting a terminal shell-quoted word yields exactly that word. -/
theorem shellFieldsAux_shellQuote_final (s : String) :
    shellFieldsAux .top Option.none ((shellQuote s).data) = some [s.data] := by
  have := shellFieldsAux_shellQuote s []
  rw [List.append_nil] at this
  rw [this]
  rfl

/-- The characters of a space-join are the character-level space-join. -/
theorem data_joinSpace (ws : List String) :
    (joinSpace ws).data = joinSpChars (ws.map fun w => w.data) := by
  match ws with
  | [] => rfl
  | [w] => rfl
  | w :: x :: ws =>
    show (w ++ " " ++ joinSpace (x :: ws)).data = _
    rw [show (w ++ " " ++ joinSpace (x :: ws)).data =
        (w.data ++ [' ']) ++ (joinSpace (x :: ws)).data from rfl]
    rw [List.append_assoc, List.singleton_append, data_joinSpace (x :: ws)]
    rfl

/-- Shell evaluation of a quoted string recovers exactly the original
string as a single word. -/
theorem shellFields_shellQuote (s : String) :
    shellFields (shellQuote s) = some [s] := by
  unfold shellFields
  rw [shellFieldsAux_shellQuote_final]
  rfl

/-- The continuation command built by `buildActionCommand` splits into
exactly the intended argument vector. -/
theorem shellFields_buildActionCommand (exe act tid : String) :
    shellFields (buildActionCommand exe act tid) =
      some ([exe, "action", act] ++
        if tid = "" then [] else ["--thread-id", tid]) := by
  by_cases h : tid = ""
  · subst h
    simp only [buildActionCommand, shellFields, ne_eq, not_true_eq_false,
      if_false, ite_false]
    rw [data_joinSpace]
    simp only [List.map_cons, List.map_nil]
    rw [show joinSpChars [(shellQuote exe).data, ("action" : String).data,
          (shellQuote act).data] =
        (shellQuote exe).data ++ ' ' ::
          (("action" : String).data ++ ' ' :: (shellQuote act).data) from rfl]
    rw [shellFieldsAux_shellQuote exe, shellFieldsAux_space,
      shellFieldsAux_plainStart ("action" : String).data (by decide) (by decide),
      shellFieldsAux_space, shellFieldsAux_shellQuote_final]
    rfl
  · simp only [buildActionCommand, shellFields, ne_eq, h, not_false_eq_true,
      if_true, ite_true]
    rw [data_joinSpace]
    simp only [List.cons_append, List.nil_append, List.map_cons, List.map_nil]
    rw [show joinSpChars [(shellQuote exe).data, ("action" : String).data,
          (shellQuote act).data, ("--thread-id" : String).data,
          (shellQuote tid).data] =
        (shellQuote exe).data ++ ' ' ::
          (("action" : String).data ++ ' ' ::
            ((shellQuote act).data ++ ' ' ::
              (("--thread-id" : String).data ++ ' ' ::
                (shellQuote tid).data))) from rfl]
    rw [shellFieldsAux_shellQuote exe, shellFieldsAux_space,
      shellFieldsAux_plainStart ("action" : String).data (by decide) (by decide),
      shellFieldsAux_space, shellFieldsAux_shellQuote act, shellFieldsAux_space,
      shellFieldsAux_plainStart ("--thread-id" : String).data (by decide) (by decide),
      shellFieldsAux_space, shellFieldsAux_shellQuote_final]
    simp [h]

/-- The continuation command built by `buildSubmitActionCommand` splits into
exactly the intended argument vector. -/
theorem shellFields_buildSubmitActionCommand (exe text tid : String) :
    shellFields (buildSubmitActionCommand exe text tid) =
      some ([exe, "action", "submit", "--text", text] ++
        if tid = "" then [] else ["--thread-id", tid]) := by
  by_cases h : tid = ""
  · subst h
    simp only [buildSubmitActionCommand, shellFields, ne_eq, not_true_eq_false,
      if_false, ite_false]
    rw [data_joinSpace]
    simp only [List.map_cons, List.map_nil]
    rw [show joinSpChars [(shellQuote exe).data, ("action" : String).data,
          ("submit" : String).data, ("--text" : String).data,
          (shellQuote text).data] =
        (shellQuote exe).data ++ ' ' ::
          (("action" : String).data ++ ' ' ::
            (("submit" : String).data ++ ' ' ::
              (("--text" : String).data ++ ' ' ::
                (shellQuote text).data))) from rfl]
    rw [shellFieldsAux_shellQuote exe, shellFieldsAux_space,
      shellFieldsAux_plainStart ("action" : String).data (by decide) (by decide),
      shellFieldsAux_space,
      shellFieldsAux_plainStart ("submit" : String).data (by decide) (by decide),
      shellFieldsAux_space,
      shellFieldsAux_plainStart ("--text" : String).data (by decide) (by decide),
      shellFieldsAux_space, shellFieldsAux_shellQuote_final]
    rfl
  · simp only [buildSubmitActionCommand, shellFields, ne_eq, h,
      not_false_eq_true, if_true, ite_true]
    rw [data_joinSpace]
    simp only [List.cons_append, List.nil_append, List.map_cons, List.map_nil]
    rw [show joinSpChars [(shellQuote exe).data, ("action" : String).data,
          ("submit" : String).data, ("--text" : String).data,
          (shellQuote text).data, ("--thread-id" : String).data,
          (shellQuote tid).data] =
        (shellQuote exe).data ++ ' ' ::
          (("action" : String).data ++ ' ' ::
            (("submit" : String).data ++ ' ' ::
              (("--text" : String).data ++ ' ' ::
                ((shellQuote text).data ++ ' ' ::
                  (("--thread-id" : String).data ++ ' ' ::
                    (shellQuote tid).data))))) from rfl]
    rw [shellFieldsAux_shellQuote exe, shellFieldsAux_space,
      shellFieldsAux_plainStart ("action" : String).data (by decide) (by decide),
      shellFieldsAux_space,
      shellFieldsAux_plainStart ("submit" : String).data (by decide) (by decide),
      shellFieldsAux_space,
      shellFieldsAux_plainStart ("--text" : String).data (by decide) (by decide),
      shellFieldsAux_space, shellFieldsAux_shellQuote text, shellFieldsAux_space,
      shellFieldsAux_plainStart ("--thread-id" : String).data (by decide) (by decide),
      shellFieldsAux_space, shellFieldsAux_shellQuote_final]
    simp [h]

/-- C9: `shellQuote` is a POSIX single-quoted encoding whose shell
evaluation yields exactly the original string (round trip, embedded single
quotes included), and the continuation command lines built by
`buildActionCommand` and `buildSubmitActionCommand` therefore split into
exactly the intended argument vectors — no interpolated field can add shell
words. -/
theorem c9_shellQuote_roundtrip_and_argv :
    (∀ s : String, shellFields (shellQuote s) = some [s]) ∧
    (∀ exe act tid : String, shellFields (buildActionCommand exe act tid) =
      some ([exe, "action", act] ++
        if tid = "" then [] else ["--thread-id", tid])) ∧
    (∀ exe text tid : String, shellFields (buildSubmitActionCommand exe text tid) =
      some ([exe, "action", "submit", "--text", text] ++
        if tid = "" then [] else ["--thread-id", tid])) :=
  ⟨shellFields_shellQuote, shellFields_buildActionCommand,
    shellFields_buildSubmitActionCommand⟩

/-- C10: `approvalUIStyle` returns "multi" exactly when the trimmed,
lowercased environment value is "multi", and "popup" for every other value;
in particular the documented "single" mode behaves identically to "popup". -/
theorem c10_approvalUIStyle_multi_or_popup :
    (∀ v : String, approvalUIStyle v =
      if lowerS (trimS v) = "multi" then "multi" else "popup") ∧
    approvalUIStyle "single" = approvalUIStyle "popup" ∧
    approvalUIStyle "single" = "popup" := by
  refine ⟨?_, by decide, by decide⟩
  intro v
  by_cases h : lowerS (trimS v) = "multi"
  · simp only [approvalUIStyle, h]
    decide
  · simp [approvalUIStyle, h]

/-- C6: in both the Go configuration reader and the Swift helper's argument
parser, the effective approval timeout lies in [5, 300]; numeric values are
clamped into the range and absent or non-numeric values fall back to 45. -/
theorem c6_timeout_clamped_5_300 :
    (∀ raw : String, 5 ≤ approvalActionTimeoutSeconds raw ∧
      approvalActionTimeoutSeconds raw ≤ 300) ∧
    (∀ raw : String, approvalActionTimeoutSeconds raw =
      swiftClampTimeout (some (trimS raw))) ∧
    (∀ raw : String, parseDecInt (trimS raw) = Option.none →
      approvalActionTimeoutSeconds raw = 45) ∧
    (∀ raw : String, ∀ n : Int, parseDecInt (trimS raw) = some n →
      approvalActionTimeoutSeconds raw = max 5 (min 300 n)) ∧
    (∀ args : List String, 5 ≤ (parseArgs args).timeoutSeconds ∧
      (parseArgs args).timeoutSeconds ≤ 300) ∧
    swiftClampTimeout Option.none = 45 := by
  have hcore : ∀ raw : String, approvalActionTimeoutSeconds raw =
      swiftClampTimeout (some (trimS raw)) := by
    intro raw
    by_cases ht : trimS raw = ""
    · have h1 : approvalActionTimeoutSeconds raw = 45 := by
        simp [approvalActionTimeoutSeconds, ht]
      have h2 : swiftClampTimeout (some (trimS raw)) = 45 := by
        rw [ht]; decide
      rw [h1, h2]
    · match hp : parseDecInt (trimS raw) with
      | Option.none =>
        have h1 : approvalActionTimeoutSeconds raw = 45 := by
          simp [approvalActionTimeoutSeconds, ht, hp]
        have h2 : swiftClampTimeout (some (trimS raw)) = 45 := by
          simp [swiftClampTimeout, hp]
        rw [h1, h2]
      | some n =>
        simp only [approvalActionTimeoutSeconds, swiftClampTimeout, ht,
          if_neg ht, hp, Option.getD_some, Int.max_def, Int.min_def]
        split_ifs <;> first | contradiction | omega
  have hrange : ∀ x : Option String, 5 ≤ swiftClampTimeout x ∧
      swiftClampTimeout x ≤ 300 := by
    intro x
    simp only [swiftClampTimeout, Int.max_def, Int.min_def]
    split_ifs <;> first | contradiction | omega
  refine ⟨fun raw => by rw [hcore raw]; exact hrange _, hcore, ?_, ?_, ?_, by decide⟩
  · intro raw hp
    by_cases ht : trimS raw = ""
    · simp [approvalActionTimeoutSeconds, ht]
    · simp [approvalActionTimeoutSeconds, ht, hp]
  · intro raw n hp
    have ht : trimS raw ≠ "" := by
      intro h
      rw [h] at hp
      exact Option.noConfusion ((show parseDecInt "" = Option.none from rfl) ▸ hp)
    simp only [approvalActionTimeoutSeconds, if_neg ht, hp, Int.max_def,
      Int.min_def]
    split_ifs <;> first | contradiction | omega
  · intro args
    exact hrange _

/-- Witness for C6 at concrete inputs: a small value clamps to 5, a large
value clamps to 300, a non-numeric value falls back to 45. -/
theorem c6_timeout_clamped_5_300_witness :
    (parseDecInt (trimS "2") = some 2 ∧
      approvalActionTimeoutSeconds "2" = max 5 (min 300 2)) ∧
    (parseDecInt (trimS "4000") = some 4000 ∧
      approvalActionTimeoutSeconds "4000" = max 5 (min 300 4000)) ∧
    (parseDecInt (trimS "later") = Option.none ∧
      approvalActionTimeoutSeconds "later" = 45) :=
  ⟨⟨by decide, c6_timeout_clamped_5_300.2.2.2.1 "2" 2 (by decide)⟩,
   ⟨by decide, c6_timeout_clamped_5_300.2.2.2.1 "4000" 4000 (by decide)⟩,
   ⟨by decide, c6_timeout_clamped_5_300.2.2.1 "later" (by decide)⟩⟩

/-- C4: whenever the whitespace-normalized message exceeds 180 code units,
the preview is exactly 180 code units long, its last three characters are
the intact ellipsis marker, and its first 177 characters are the untouched
prefix of the normalized message; messages of at most 180 code units are
returned unmodified with no ellipsis. -/
theorem c4_preview_truncated_at_180 (p : Payload) :
    (180 < (payloadPreviewCore p).length →
      (payloadPreviewMessage p).length = 180 ∧
      (⟨(payloadPreviewMessage p).data.drop 177⟩ : String) = "..." ∧
      (⟨(payloadPreviewMessage p).data.take 177⟩ : String) =
        ⟨(payloadPreviewCore p).data.take 177⟩) ∧
    ((payloadPreviewCore p).length ≤ 180 →
      payloadPreviewMessage p = payloadPreviewCore p) := by
  constructor
  · intro h
    have hlen : 180 < (payloadPreviewCore p).data.length := h
    have h177 : ((payloadPreviewCore p).data.take 177).length = 177 := by
      rw [List.length_take]
      omega
    have hmsg : payloadPreviewMessage p =
        (⟨(payloadPreviewCore p).data.take 177⟩ : String) ++ "..." := by
      simp only [payloadPreviewMessage, if_pos h]
    refine ⟨?_, ?_, ?_⟩
    · rw [hmsg]
      show ((payloadPreviewCore p).data.take 177 ++ ("..." : String).data).length = 180
      rw [List.length_append, h177]
      decide
    · rw [hmsg]
      show (⟨((payloadPreviewCore p).data.take 177 ++ ("..." : String).data).drop 177⟩ :
        String) = "..."
      rw [List.drop_append_of_le_length (by omega), List.drop_eq_nil_of_le (by omega),
        List.nil_append]
    · rw [hmsg]
      show (⟨((payloadPreviewCore p).data.take 177 ++ ("..." : String).data).take 177⟩ :
        String) = _
      rw [List.take_append_of_le_length (by omega), List.take_take]
      simp
  · intro h
    simp only [payloadPreviewMessage, if_neg (not_lt.mpr h)]

/-- A hook payload whose message field is 200 characters long. -/
def c4LongPayload : Payload :=
  [("message", JValue.str ⟨List.replicate 200 'a'⟩)]

/-- A hook payload with a short message field. -/
def c4ShortPayload : Payload :=
  [("message", JValue.str "all done here")]

set_option maxRecDepth 4000 in
/-- Witness for C4: a 200-character message is truncated to exactly 180
with the ellipsis; a short message passes through unmodified. -/
theorem c4_preview_truncated_at_180_witness :
    (180 < (payloadPreviewCore c4LongPayload).length ∧
      (payloadPreviewMessage c4LongPayload).length = 180) ∧
    ((payloadPreviewCore c4ShortPayload).length ≤ 180 ∧
      payloadPreviewMessage c4ShortPayload = payloadPreviewCore c4ShortPayload) :=
  ⟨⟨by decide, ((c4_preview_truncated_at_180 c4LongPayload).1 (by decide)).1⟩,
   ⟨by decide, (c4_preview_truncated_at_180 c4ShortPayload).2 (by decide)⟩⟩

/-- With exactly two options, an option label outside the known vocabulary
falls back to the positional mapping. -/
theorem actionForApprovalOption_unrecognized (label : String) (idx : Nat)
    (h : normalizeOptionLabel label ∉ approvalVocab) :
    actionForApprovalOption label idx 2 =
      if idx = 0 then "approve" else "reject" := by
  simp only [approvalVocab, List.mem_cons, List.not_mem_nil, or_false,
    not_or] at h
  obtain ⟨ho1, ho2, ho3, ha1, ha2, ha3, ha4, ha5, ha6, hr1, hr2, hr3, hr4,
    hr5, hr6⟩ := h
  simp only [actionForApprovalOption]
  rw [if_neg (by push_neg; exact ⟨ho1, ho2, ho3⟩),
    if_neg (by push_neg; exact ⟨ha1, ha2, ha3, ha4, ha5, ha6⟩),
    if_neg (by push_neg; exact ⟨hr1, hr2, hr3, hr4, hr5, hr6⟩)]
  simp

/-- C3: when the payload supplies exactly two option labels and neither one
matches the known open/approve/reject vocabulary (after the
case/space/hyphen/underscore-insensitive normalization), the resolver maps
the label at index 0 to the approve action and the label at index 1 to the
reject action. -/
theorem c3_two_unknown_labels_positional (exe tid : String) (p : Payload)
    (l0 l1 : String)
    (hopts : payloadApprovalOptions p = [l0, l1])
    (h0 : trimS l0 ≠ "") (h1 : trimS l1 ≠ "")
    (hn0 : normalizeOptionLabel (trimS l0) ∉ approvalVocab)
    (hn1 : normalizeOptionLabel (trimS l1) ∉ approvalVocab) :
    approvalChoicesFromPayload exe p tid =
      [⟨trimS l0, buildActionCommand exe "approve" tid⟩,
       ⟨trimS l1, buildActionCommand exe "reject" tid⟩] := by
  have ha0 : actionForApprovalOption (trimS l0) 0 2 = "approve" := by
    rw [actionForApprovalOption_unrecognized (trimS l0) 0 hn0]
    rfl
  have ha1 : actionForApprovalOption (trimS l1) 1 2 = "reject" := by
    rw [actionForApprovalOption_unrecognized (trimS l1) 1 hn1]
    rfl
  simp only [approvalChoicesFromPayload, hopts]
  simp [List.enum, List.enumFrom, List.filterMap, h0, h1, ha0, ha1]

/-- A payload carrying the two unknown labels "Foo" and "Bar". -/
def c3Payload : Payload :=
  [("event", JValue.str "approval-requested"),
   ("options", JValue.arr [JValue.str "Foo", JValue.str "Bar"])]

/-- Witness for C3: with the two unknown labels "Foo" and "Bar", the first
becomes the approve action and the second the reject action. -/
theorem c3_two_unknown_labels_positional_witness :
    payloadApprovalOptions c3Payload = ["Foo", "Bar"] ∧
    approvalChoicesFromPayload "/usr/local/bin/codex-notify" c3Payload "t1" =
      [⟨"Foo", buildActionCommand "/usr/local/bin/codex-notify" "approve" "t1"⟩,
       ⟨"Bar", buildActionCommand "/usr/local/bin/codex-notify" "reject" "t1"⟩] := by
  refine ⟨by decide, ?_⟩
  have h := c3_two_unknown_labels_positional "/usr/local/bin/codex-notify" "t1"
    c3Payload "Foo" "Bar" (by decide) (by decide) (by decide) (by decide) (by decide)
  rw [h]
  decide

/-- C5: when no option-list field of the payload yields a non-empty list,
the native approval notification presents exactly the fixed default triple
Open / Approve / Reject, mapped to the open / approve / reject dispatcher
re-invocation commands in that order. -/
theorem c5_default_triple (exe : String) (p : Payload)
    (h : payloadApprovalOptions p = []) :
    sendNativeApprovalChoices exe p =
      [⟨"Open", buildActionCommand exe "open" (payloadThreadID p)⟩,
       ⟨"Approve", buildActionCommand exe "approve" (payloadThreadID p)⟩,
       ⟨"Reject", buildActionCommand exe "reject" (payloadThreadID p)⟩] := by
  simp [sendNativeApprovalChoices, approvalChoicesFromPayload, h,
    defaultApprovalChoices]

/-- An approval payload with no option-list field at all. -/
def c5Payload : Payload :=
  [("event", JValue.str "approval-requested"),
   ("thread-id", JValue.str "t1")]

/-- Witness for C5 at a concrete payload with no option list. -/
theorem c5_default_triple_witness :
    payloadApprovalOptions c5Payload = [] ∧
    sendNativeApprovalChoices "/usr/local/bin/codex-notify" c5Payload =
      [⟨"Open", buildActionCommand "/usr/local/bin/codex-notify" "open"
          (payloadThreadID c5Payload)⟩,
       ⟨"Approve", buildActionCommand "/usr/local/bin/codex-notify" "approve"
          (payloadThreadID c5Payload)⟩,
       ⟨"Reject", buildActionCommand "/usr/local/bin/codex-notify" "reject"
          (payloadThreadID c5Payload)⟩] :=
  ⟨by decide, c5_default_triple "/usr/local/bin/codex-notify" c5Payload (by decide)⟩

/-- An empty payload is never routed to the native approval popup: its event
name is empty, not "approval-requested". -/
theorem shouldUseNative_empty (env : HookEnv) :
    shouldUseNativeApprovalNotification env [] = false := by
  simp only [shouldUseNativeApprovalNotification]
  by_cases h : notificationUIStyle env.notificationUI = "system"
  · simp [h]
  · simp only [h, if_false, ite_false]
    rw [if_pos (show payloadEventName [] ≠ "approval-requested" by decide)]

/-- C7: non-empty hook input that fails JSON parsing is a fatal error and
dispatches nothing, while empty hook input is interpreted as a normalized
event with empty event name and yields exactly one plain notification with
the generic preview. -/
theorem c7_malformed_fatal_empty_generic :
    (∀ (env : HookEnv) (raw : String) (parse : String → Except String Payload),
      trimS raw ≠ "" → ∀ e, parse raw = .error e →
        runHook env raw parse = .error ("parse payload json: " ++ e)) ∧
    (∀ (env : HookEnv) (raw : String) (parse : String → Except String Payload),
      trimS raw = "" →
        runHook env raw parse =
          .ok [.notify ⟨"Codex", "通知イベントを受信しました。", "codex-notify-event",
            buildActionCommand env.executable "open" "", "", ""⟩]) ∧
    payloadEventName [] = "" := by
  refine ⟨?_, ?_, rfl⟩
  · intro env raw parse hraw e hp
    simp [runHook, hraw, hp]
  · intro env raw parse hraw
    simp only [runHook, hraw, if_true, ite_true]
    rw [show (if shouldUseNativeApprovalNotification env [] && env.helperOK then
        Except.ok [HookDispatch.nativeHelper (sendNativeApprovalArgs env [])]
      else
        Except.ok ((buildHookNotifications env []).map HookDispatch.notify)) =
        Except.ok ((buildHookNotifications env []).map HookDispatch.notify) by
      rw [shouldUseNative_empty env]
      rfl]
    rfl

/-- A concrete hook environment for the C7 witness. -/
def c7Env : HookEnv :=
  ⟨"", "", "", "", "", "", "/usr/local/bin/codex-notify", true, false⟩

/-- Witness for C7: a non-JSON input fails fatally with the wrapped parse
error; empty input produces the single generic notification. -/
theorem c7_malformed_fatal_empty_generic_witness :
    (trimS "not json" ≠ "" ∧
      runHook c7Env "not json" (fun _ => .error "invalid character") =
        .error ("parse payload json: " ++ "invalid character")) ∧
    (trimS "" = "" ∧
      runHook c7Env "" (fun _ => .error "never called") =
        .ok [.notify ⟨"Codex", "通知イベントを受信しました。", "codex-notify-event",
          buildActionCommand c7Env.executable "open" "", "", ""⟩]) :=
  ⟨⟨by decide,
    c7_malformed_fatal_empty_generic.1 c7Env "not json"
      (fun _ => .error "invalid character") (by decide) "invalid character" rfl⟩,
   ⟨rfl,
    c7_malformed_fatal_empty_generic.2.1 c7Env ""
      (fun _ => .error "never called") rfl⟩⟩

/-- C8: with the chooser dialog available, a timeout or cancellation (empty
or "none" output) makes the choose action a successful no-op; a concrete
Open / Approve / Reject choice recurses into the corresponding dispatch, and
such a dispatch can only fail through the activation or key-send outcome of
the chosen action. -/
theorem c8_choose_cancel_is_success :
    ∀ (env : ActionEnv) (out : String),
      env.osascriptAvailable = true →
      env.dialogOutcome = .ok out →
      ((lowerS (trimS out) = "" ∨ lowerS (trimS out) = "none") →
        runChooseAction env = .ok Option.none) ∧
      (lowerS (trimS out) = "open" →
        runChooseAction env = (activateApplication env).map fun _ => some "open") ∧
      (lowerS (trimS out) = "approve" →
        runChooseAction env =
          (sendActionKeys env env.approveKeys).map (fun _ => some "approve") ∧
        ∀ m, runChooseAction env = .error m →
          sendActionKeys env env.approveKeys = .error m) ∧
      (lowerS (trimS out) = "reject" →
        runChooseAction env =
          (sendActionKeys env env.rejectKeys).map (fun _ => some "reject") ∧
        ∀ m, runChooseAction env = .error m →
          sendActionKeys env env.rejectKeys = .error m) := by
  intro env out hos hd
  refine ⟨?_, ?_, ?_, ?_⟩
  · intro hc
    rcases hc with hc | hc <;>
      simp [runChooseAction, chooseApprovalAction, hos, hd, hc]
  · intro hc
    simp [runChooseAction, chooseApprovalAction, hos, hd, hc]
  · intro hc
    have hrun : runChooseAction env =
        (sendActionKeys env env.approveKeys).map (fun _ => some "approve") := by
      simp [runChooseAction, chooseApprovalAction, hos, hd, hc]
    refine ⟨hrun, ?_⟩
    intro m hm
    rw [hrun] at hm
    cases hs : sendActionKeys env env.approveKeys with
    | error e => rw [hs] at hm; simpa [Except.map] using hm
    | ok u => rw [hs] at hm; simp [Except.map] at hm
  · intro hc
    have hrun : runChooseAction env =
        (sendActionKeys env env.rejectKeys).map (fun _ => some "reject") := by
      simp [runChooseAction, chooseApprovalAction, hos, hd, hc]
    refine ⟨hrun, ?_⟩
    intro m hm
    rw [hrun] at hm
    cases hs : sendActionKeys env env.rejectKeys with
    | error e => rw [hs] at hm; simpa [Except.map] using hm
    | ok u => rw [hs] at hm; simp [Except.map] at hm

/-- A dispatcher environment whose chooser dialog times out ("none"). -/
def c8CancelEnv : ActionEnv :=
  ⟨true, .ok (), fun _ => .ok (), .ok "none", ["y", "enter"], ["n", "enter"]⟩

/-- A dispatcher environment whose chooser dialog returns "Approve". -/
def c8ApproveEnv : ActionEnv :=
  ⟨true, .ok (), fun _ => .ok (), .ok "approve", ["y", "enter"], ["n", "enter"]⟩

/-- Witness for C8: a "none" dialog outcome ends the dispatch successfully
with no action, and an "approve" outcome performs the approve dispatch. -/
theorem c8_choose_cancel_is_success_witness :
    (runChooseAction c8CancelEnv = .ok Option.none) ∧
    (runChooseAction c8ApproveEnv =
      (sendActionKeys c8ApproveEnv c8ApproveEnv.approveKeys).map
        (fun _ => some "approve")) :=
  ⟨(c8_choose_cancel_is_success c8CancelEnv "none" rfl rfl).1
      (Or.inr (by decide)),
   ((c8_choose_cancel_is_success c8ApproveEnv "approve" rfl rfl).2.2.1
      (by decide)).1⟩

/-- A helper invocation with two valid (label, command) pairs. -/
def c1Args : List String :=
  ["--title", "Codex: Approval Requested", "--message", "m",
   "--identifier", "g", "--timeout-seconds", "45",
   "--choice-label", "Approve", "--choice-cmd", "cmdA",
   "--choice-label", "Reject", "--choice-cmd", "cmdB"]

/-- C1: evaluation of the helper's state machine at the failing run.  With
two valid choices, the first click starts the Closing transition, yet a
second click delivered before termination (the popup keeps receiving run
loop events during the fade-out animation, and clicks queued while
`runShell` blocks are delivered after it returns) executes a second command:
`choiceClicked` runs the command without consulting the `isClosing` latch.
A timer event after the first click is correctly suppressed, isolating the
missing guard to the click path. -/
theorem c1_double_execution_after_closing :
    (parseArgs c1Args).choices = [⟨"Approve", "cmdA"⟩, ⟨"Reject", "cmdB"⟩] ∧
    (helperRun (parseArgs c1Args) [.choiceClick 0]).isClosing = true ∧
    (helperRun (parseArgs c1Args)
      [.choiceClick 0, .choiceClick 1]).executed = ["cmdA", "cmdB"] ∧
    (helperRun (parseArgs c1Args)
      [.choiceClick 0, .timeoutFired]).executed = ["cmdA"] := by
  decide

/-- A hook environment in which an InteractionLock marker is currently held
for the approval group (a popup is open), with the helper available and all
approval settings at their defaults. -/
def c2Env : HookEnv :=
  ⟨"", "", "", "", "", "", "/usr/local/bin/codex-notify", true, true⟩

/-- A second approval-requested hook delivery for the same thread (and hence
the same notification group) as the open popup. -/
def c2Payload : Payload :=
  [("event", JValue.str "approval-requested"),
   ("thread-id", JValue.str "t1")]

/-- C2: evaluation of the hook path at the failing input.  With the
InteractionLock held (`lockHeld = true`), a second approval hook delivery
still performs exactly one dispatch — a fresh popup helper spawn — instead
of the zero dispatches the suppression rule requires; moreover the dispatch
result is independent of the lock state, because no code in `runHook` or
`sendNativeApprovalNotification` consults any lock marker. -/
theorem c2_hook_ignores_interaction_lock :
    c2Env.lockHeld = true ∧
    runHook c2Env "payload" (fun _ => .ok c2Payload) =
      .ok [.nativeHelper (sendNativeApprovalArgs c2Env c2Payload)] ∧
    (∀ b : Bool,
      runHook { c2Env with lockHeld := b } "payload" (fun _ => .ok c2Payload) =
        runHook c2Env "payload" (fun _ => .ok c2Payload)) ∧
    [HookDispatch.nativeHelper (sendNativeApprovalArgs c2Env c2Payload)].length = 1 := by
  refine ⟨rfl, rfl, ?_, rfl⟩
  intro b
  cases b <;> rfl
